import Mathlib

/-!
Verification of the core of the `halting-problem` game: the virtual machine
(`src/vm.ts`), the navigation/dispatch/undo layer (`src/game.ts`), and the
run-length codec used for level programs.

Modelling conventions (shallow embedding of the TypeScript source):

* The VM memory is a `Uint8ClampedArray`.  We model it as a `List Nat` of
  bytes.  Reading index `i` yields `Option Nat`: `none` models the JavaScript
  `undefined` produced by an out-of-range (or negative / NaN) index.  Writing
  out of range is a silent no-op, exactly as on a typed array, and every
  stored value is clamped to `[0, 255]` (`Uint8ClampedArray` saturates
  instead of wrapping).
* Arithmetic such as `memory[DBG] += value` is byte arithmetic over `Int`
  followed by the clamped store.  When one side of a JavaScript arithmetic
  expression is `undefined` the result is `NaN`, and storing `NaN` into a
  clamped byte stores `0`; we encode that by feeding `-1` (any negative
  value clamps to `0`) to the clamped store in those unreachable corners.
* JavaScript comparisons with `undefined` (`undefined > 0`, `x < undefined`)
  are `false`; `undefined === undefined` is `true`; these are reflected in
  the `jsLt`/`Option` equality used below.
-/

namespace HaltingProblem

/-! ### Constants from `src/vm.ts` -/

-- Registers
def STA : Nat := 0
def IP : Nat := 1
def SP : Nat := 2
def CYC : Nat := 3
def DBG : Nat := 4
def DAT : Nat := 5

-- Offsets
def STK : Nat := 10
def PRG : Nat := 24

-- Opcodes
def NIL : Nat := 0x0
def NOP : Nat := 0x1
def GET : Nat := 0x2
def SET : Nat := 0x3
def SWP : Nat := 0x4
def ADD : Nat := 0x5
def SUB : Nat := 0x6
def TEQ : Nat := 0x7
def TLT : Nat := 0x8
def TGT : Nat := 0x9
def SND : Nat := 0xa
def END : Nat := 0xb

-- Statuses
def RUNNING : Nat := 0
def HALTED : Nat := 1

-- Directions
def RIGHT : Nat := 1
def DOWN : Nat := 2
def LEFT : Nat := 4
def UP : Nat := 8

-- Modes
def IMMEDIATE_MODE : Nat := 0
def ADDRESS_MODE : Nat := 1

-- Offsets / sizes
def INSTR_WIDTH : Nat := 4
def INSTR_OPCODE : Nat := 0
def INSTR_OPERAND : Nat := 1
def INSTR_MODE : Nat := 2
def INSTR_DIRS : Nat := 3
def STACK_LENGTH : Nat := 13
def PROGRAM_COLS : Nat := 13
def PROGRAM_ROWS : Nat := 13
def PROGRAM_LENGTH : Nat := PROGRAM_COLS * PROGRAM_ROWS
def PROGRAM_SIZE : Nat := PROGRAM_LENGTH * INSTR_WIDTH
def MEMORY_SIZE : Nat := PRG + PROGRAM_SIZE

/-! ### The memory model (`Uint8ClampedArray`) -/

/-- Machine memory: a byte array (`let memory = new Uint8ClampedArray(MEMORY_SIZE)`). -/
abbrev Mem : Type := List Nat

/-- A store into a `Uint8ClampedArray` clamps the value to `[0, 255]`
(saturation, not wrap-around).  All values stored by this program are
integers, so the rounding part of the clamped conversion never applies. -/
def clampByte (v : Int) : Nat :=
  if v < 0 then 0 else if v > 255 then 255 else v.toNat

/-- `memory[i]`: an in-range index reads the byte, everything else
(negative, past the end) reads as `undefined` (`none`). -/
def readMem (m : Mem) (i : Int) : Option Nat :=
  if 0 ≤ i then m[i.toNat]? else none

/-- `memory[i] = v`: out-of-range stores on a typed array are silently
dropped; in-range stores clamp the value to a byte. -/
def writeMem (m : Mem) (i : Int) (v : Int) : Mem :=
  if 0 ≤ i then m.set i.toNat (clampByte v) else m

/-! ### Stack and instruction primitives (`src/vm.ts`) -/

/-- `peek()` — `memory[STK + memory[SP] - 1]`.  If `memory[SP]` itself is
`undefined` the index is `NaN` and the read yields `undefined`. -/
def peek (m : Mem) : Option Nat :=
  (readMem m (SP : Int)).bind fun sp => readMem m ((STK : Int) + sp - 1)

/-- `push(value)` — `memory[STK + memory[SP]] = value; memory[SP] += 1;`. -/
def push (m : Mem) (value : Int) : Mem :=
  let m1 :=
    match readMem m (SP : Int) with
    | some sp => writeMem m ((STK : Int) + sp) value
    | none => m
  match readMem m1 (SP : Int) with
  | some sp => writeMem m1 (SP : Int) ((sp : Int) + 1)
  | none => m1

/-- `pop()` — reads `memory[STK + memory[SP] - 1]`, then `memory[SP] -= 1`
(the decrement clamps at 0 on the clamped byte array). -/
def pop (m : Mem) : Option Nat × Mem :=
  let value := (readMem m (SP : Int)).bind fun sp => readMem m ((STK : Int) + sp - 1)
  let m1 :=
    match readMem m (SP : Int) with
    | some sp => writeMem m (SP : Int) ((sp : Int) - 1)
    | none => m
  (value, m1)

/-- `fetch(ptr, field)` — `memory[PRG + ptr * INSTR_WIDTH + field]`. -/
def fetch (m : Mem) (ptr : Int) (field : Nat) : Option Nat :=
  readMem m ((PRG : Int) + ptr * INSTR_WIDTH + field)

/-- `store(ptr, field, value)` — `memory[PRG + ptr * INSTR_WIDTH + field] = value`. -/
def store (m : Mem) (ptr : Int) (field : Nat) (value : Int) : Mem :=
  writeMem m ((PRG : Int) + ptr * INSTR_WIDTH + field) value

/-! ### Execution (`exec`, `src/vm.ts` lines 144-217) -/

/-- A JavaScript value used as a number in a clamped-byte store:
`undefined` becomes `NaN`, which the clamped store records as `0` — the
same result as storing any negative number, so we encode it as `-1`. -/
def jsNum : Option Nat → Int
  | some n => (n : Int)
  | none => -1

/-- `a + b` destined for a clamped byte store; `undefined` operands give
`NaN`, which stores as `0`. -/
def jsAdd : Option Nat → Option Nat → Int
  | some a, some b => (a : Int) + b
  | _, _ => -1

/-- `a - b` destined for a clamped byte store; `undefined` operands give
`NaN`, which stores as `0`. -/
def jsSub : Option Nat → Option Nat → Int
  | some a, some b => (a : Int) - b
  | _, _ => -1

/-- JavaScript `<` on two byte-or-undefined values (comparisons involving
`undefined` are `false`). -/
def jsLt : Option Nat → Option Nat → Bool
  | some a, some b => a < b
  | _, _ => false

/-- Operand resolution, `src/vm.ts` lines 146-156: in `ADDRESS_MODE` the
operand `STK` dereferences to `peek() ?? 0` and any other operand is read
as a raw memory byte; in immediate mode the operand itself is the value. -/
def resolve (m : Mem) (ptr : Int) : Option Nat :=
  let operand := fetch m ptr INSTR_OPERAND
  let mode := fetch m ptr INSTR_MODE
  if mode = some ADDRESS_MODE then
    if operand = some STK then some ((peek m).getD 0)
    else
      match operand with
      | some v => readMem m (v : Int)
      | none => none
  else operand

/-- `exec(ptr)` — executes the instruction at `ptr` and returns the
success flag together with the updated memory.  The `switch` is mirrored
case by case (the numeric literals are the opcode constants, named in the
comments); an opcode read from out of range (`undefined`) matches no
`case` and falls through to `return false`, as does any opcode value with
no `case` of its own. -/
def exec (m : Mem) (ptr : Int) : Bool × Mem :=
  match fetch m ptr INSTR_OPCODE with
  | none => (false, m)
  | some opcode =>
    let operand := fetch m ptr INSTR_OPERAND
    let value := resolve m ptr
    match opcode with
    | 0xb =>  -- case END
      (true, writeMem m (STA : Int) (HALTED : Int))
    | 0x0 =>  -- case NIL
      (false, m)
    | 0x1 =>  -- case NOP
      (true, m)
    | 0x2 =>  -- case GET
      (true, writeMem m (DBG : Int) (jsNum value))
    | 0x3 =>  -- case SET
      (true,
        match operand with
        | some o =>
          if o = STK then push m (jsNum (readMem m (DBG : Int)))
          else writeMem m (o : Int) (jsNum value)
        | none =>
          -- `operand === STK` is false for `undefined`;
          -- `memory[undefined] = value` is a dropped NaN-index store.
          m)
    | 0x4 =>  -- case SWP
      (true,
        match operand with
        | some o =>
          if o = STK then
            let pr := pop m
            let m2 := push pr.2 (jsNum (readMem pr.2 (DBG : Int)))
            writeMem m2 (DBG : Int) (jsNum pr.1)
          else
            let tmp := readMem m (o : Int)
            let m1 := writeMem m (o : Int) (jsNum (readMem m (DBG : Int)))
            writeMem m1 (DBG : Int) (jsNum tmp)
        | none =>
          -- `memory[undefined] = memory[DBG]` is dropped (NaN index);
          -- `memory[DBG] = tmp` stores `undefined` as 0.
          writeMem m (DBG : Int) (-1))
    | 0x5 =>  -- case ADD
      (true, writeMem m (DBG : Int) (jsAdd (readMem m (DBG : Int)) value))
    | 0x6 =>  -- case SUB
      (true, writeMem m (DBG : Int) (jsSub (readMem m (DBG : Int)) value))
    | 0x7 =>  -- case TEQ
      (decide (readMem m (DBG : Int) = value), m)
    | 0x8 =>  -- case TLT
      (jsLt (readMem m (DBG : Int)) value, m)
    | 0x9 =>  -- case TGT
      (jsLt value (readMem m (DBG : Int)), m)
    | 0xa =>  -- case SND
      (true, m)
    | _ =>  -- no matching case
      (false, m)

/-- `jump(ptr)` — `let ok = exec(ptr); if (ok) memory[IP] = ptr; return ok;`. -/
def jump (m : Mem) (ptr : Int) : Bool × Mem :=
  let r := exec m ptr
  if r.1 then (r.1, writeMem r.2 (IP : Int) ptr) else r

/-- `cycle()` — `memory[CYC] += 1`. -/
def cycle (m : Mem) : Mem :=
  match readMem m (CYC : Int) with
  | some c => writeMem m (CYC : Int) ((c : Int) + 1)
  | none => m

/-! ### Game layer (`src/game.ts`, variant with the active direction check,
lines 443-811) -/

/-- Game-level state: the VM memory, the undo history (most recent snapshot
first — JavaScript `push`/`pop` operate on the same end of the array), the
current level's program memory (what `init`/`load(currentLevel.program)`
installs), and the remaining levels for `goToNextLevel`. -/
structure GameState where
  memory : Mem
  history : List Mem
  levelMem : Mem
  nextLevels : List Mem
deriving DecidableEq

/-- `undo()` — `if (history.length) load(history.pop()!)`. -/
def undo (s : GameState) : GameState :=
  match s.history with
  | [] => s
  | top :: rest => { s with memory := top, history := rest }

/-- `goToNextLevel()` — advances `currentLevel` to the next level when one
exists (the `localStorage` write is presentation-side bookkeeping). -/
def goToNextLevel (s : GameState) : GameState :=
  match s.nextLevels with
  | [] => s
  | next :: rest => { s with levelMem := next, nextLevels := rest }

/-- `init()` — `load(currentLevel.program)`: replace memory wholesale with
the current level's program. -/
def init (s : GameState) : GameState :=
  { s with memory := s.levelMem }

/-- `jump(memory[IP] + off)`.  When `memory[IP]` is `undefined` the pointer
is `NaN`, every `fetch` inside `exec` reads `undefined`, the `switch`
falls through to `return false` and no byte is written, so the call is
equivalent to `(false, m)`. -/
def jumpFromIP (m : Mem) (off : Int) : Bool × Mem :=
  match readMem m (IP : Int) with
  | some ip => jump m ((ip : Int) + off)
  | none => (false, m)

/-- `move(direction)` — `src/game.ts` lines 774-787: reads the direction
mask of the instruction at the current `IP`; a nonzero mask that does not
contain `direction` rejects the move immediately (`dirs > 0` is `false`
when `dirs` is `undefined`); otherwise the target is `jump`ed to. -/
def move (m : Mem) (direction : Nat) : Bool × Mem :=
  let dirs := (readMem m (IP : Int)).bind fun ip => fetch m (ip : Int) INSTR_DIRS
  match dirs with
  | some d =>
    if 0 < d ∧ d &&& direction = 0 then (false, m)
    else
      if direction = LEFT then jumpFromIP m (-1)
      else if direction = UP then jumpFromIP m (-(PROGRAM_COLS : Int))
      else if direction = DOWN then jumpFromIP m (PROGRAM_COLS : Int)
      else if direction = RIGHT then jumpFromIP m 1
      else (false, m)
  | none =>
    if direction = LEFT then jumpFromIP m (-1)
    else if direction = UP then jumpFromIP m (-(PROGRAM_COLS : Int))
    else if direction = DOWN then jumpFromIP m (PROGRAM_COLS : Int)
    else if direction = RIGHT then jumpFromIP m 1
    else (false, m)

/-- The `ok = move(...)` cascade of `dispatch` (`src/game.ts` lines 791-796):
each recognised direction command runs `move` with that direction; anything
else leaves `ok = false` and memory untouched. -/
def dispatchMove (m : Mem) (command : Nat) : Bool × Mem :=
  if command = LEFT then move m LEFT
  else if command = UP then move m UP
  else if command = DOWN then move m DOWN
  else if command = RIGHT then move m RIGHT
  else (false, m)

/-- `dispatch(command)` — `src/game.ts` lines 789-807: snapshot, attempt the
move, push the snapshot and tick the cycle counter only on success, then
reload the (possibly advanced) level whenever the status byte reads
`HALTED`. -/
def dispatch (s : GameState) (command : Nat) : GameState :=
  let snapshot := s.memory
  let r := dispatchMove s.memory command
  let s1 :=
    if r.1 then { s with memory := cycle r.2, history := snapshot :: s.history }
    else { s with memory := r.2 }
  if readMem s1.memory (STA : Int) = some HALTED then init (goToNextLevel s1) else s1

/-- Sequential dispatch of a list of direction commands. -/
def dispatchAll (s : GameState) : List Nat → GameState
  | [] => s
  | c :: cs => dispatchAll (dispatch s c) cs

/-- `okRun s cmds` holds when every command in `cmds`, dispatched in order
from `s`, has a successful move (its `move` call returns `true`, so a
pre-move snapshot is pushed onto the history). -/
def okRun (s : GameState) : List Nat → Bool
  | [] => true
  | c :: cs => (dispatchMove s.memory c).1 && okRun (dispatch s c) cs

/-! ### Run-length codec (`src/utils.ts` variant, `runLengthEncode` /
`runLengthDecode`)

The JavaScript functions operate on plain number arrays but are untyped at
the edges: encoding an empty array reads `array[0]` (`undefined`) into
`run` and still pushes the final `(run, len)` pair, and decoding reads
`array[i + 1]` (`undefined` for an odd-length input), for which the inner
loop `j < len` runs zero times.  We therefore model the element type as
`Option Nat` with `none` standing for `undefined`. -/

/-- The `for` loop of `runLengthEncode`, carrying the current `run` value
and its length `len`; the trailing `encoded.push(run, len)` is the base
case. -/
def rleLoop (run : Nat) (len : Nat) : List Nat → List Nat
  | [] => [run, len]
  | v :: rest =>
    if v = run then rleLoop run (len + 1) rest
    else run :: len :: rleLoop v 1 rest

/-- `runLengthEncode(array)` — for an empty input, `run = array[0]` is
`undefined` and the loop body never runs, so the result is
`[undefined, 1]`. -/
def runLengthEncode : List Nat → List (Option Nat)
  | [] => [none, some 1]
  | h :: t => (rleLoop h 1 t).map some

/-- `runLengthDecode(array)` — pairs `(val, len)` are expanded; a missing
`len` (odd-length input) makes the inner `j < len` loop run zero times. -/
def runLengthDecode : List (Option Nat) → List (Option Nat)
  | v :: len :: rest => List.replicate (len.getD 0) v ++ runLengthDecode rest
  | [_] => []
  | [] => []

/-! ### Concrete machines used by witnesses and counterexamples -/

/-- The all-zero freshly allocated memory (`new Uint8ClampedArray(MEMORY_SIZE)`). -/
def mem0 : Mem := List.replicate MEMORY_SIZE 0

/-- Memory with `DBG = 200` and the instruction `ADD 100` (immediate) at index 0. -/
def memAdd : Mem := ((mem0.set DBG 200).set (PRG + INSTR_OPCODE) ADD).set (PRG + INSTR_OPERAND) 100

/-- Memory whose instruction 0 carries direction mask `UP` only. -/
def memDirs : Mem := mem0.set (PRG + INSTR_DIRS) UP

/-- Memory with the stack pointer already driven to 20 (past capacity 13). -/
def memSp20 : Mem := mem0.set SP 20

/-- Memory with the reserved byte at address 9 set to 5 (the slot `peek`
reads when `SP = 0`) and `GET STK` in address mode at instruction 0. -/
def memPeek9 : Mem :=
  (((mem0.set 9 5).set (PRG + INSTR_OPCODE) GET).set (PRG + INSTR_OPERAND) STK).set
    (PRG + INSTR_MODE) ADDRESS_MODE

/-- A halted memory (`STA = HALTED`) whose instruction 0 is `SET 0`
(immediate mode): executing it writes the resolved value 0 straight into
the status byte. -/
def memHalted : Mem := (mem0.set STA HALTED).set (PRG + INSTR_OPCODE) SET

/-- Game state sitting on a halted memory with an empty history; the
current level's program is the all-zero memory. -/
def haltedState : GameState :=
  { memory := memHalted, history := [], levelMem := mem0, nextLevels := [] }

/-- Game state on the all-zero memory (`STA = RUNNING`), empty history. -/
def runningState : GameState :=
  { memory := mem0, history := [], levelMem := mem0, nextLevels := [] }

/-- Memory with a `NOP` instruction at index 1, so that a `RIGHT` move from
`IP = 0` succeeds. -/
def memNop : Mem := mem0.set (PRG + INSTR_WIDTH + INSTR_OPCODE) NOP

/-- Game state on `memNop` with an empty history. -/
def nopState : GameState :=
  { memory := memNop, history := [], levelMem := mem0, nextLevels := [] }

set_option maxRecDepth 1000000

/-! ### Helper lemmas about the memory model -/

theorem length_writeMem (m : Mem) (i v : Int) : (writeMem m i v).length = m.length := by
  unfold writeMem; split <;> simp

theorem readMem_writeMem_ne (m : Mem) {i j : Int} (v : Int) (h : i ≠ j) :
    readMem (writeMem m j v) i = readMem m i := by
  unfold readMem writeMem
  by_cases hi : 0 ≤ i
  · by_cases hj : 0 ≤ j
    · simp only [hi, hj, if_pos, if_true]
      exact List.getElem?_set_ne (by omega)
    · simp [hj]
  · simp [hi]

theorem readMem_writeMem_self (m : Mem) {i : Int} (v : Int) (h0 : 0 ≤ i)
    (h1 : i.toNat < m.length) : readMem (writeMem m i v) i = some (clampByte v) := by
  unfold readMem writeMem
  simp only [h0, if_true]
  exact List.getElem?_set_self h1

theorem readMem_bound (m : Mem) {i : Int} {x : Nat} (h : readMem m i = some x) :
    0 ≤ i ∧ i.toNat < m.length := by
  unfold readMem at h
  by_cases hi : 0 ≤ i
  · refine ⟨hi, ?_⟩
    simp only [hi, if_true] at h
    obtain ⟨hlt, -⟩ := List.getElem?_eq_some_iff.mp h
    exact hlt
  · simp [hi] at h

theorem readMem_of_lt (m : Mem) {i : Int} (h0 : 0 ≤ i) (h1 : i.toNat < m.length) :
    ∃ x, readMem m i = some x := by
  unfold readMem
  simp only [h0, if_true]
  exact ⟨m[i.toNat], List.getElem?_eq_getElem h1⟩

theorem clampByte_coe (n : Nat) (h : n ≤ 255) : clampByte (n : Int) = n := by
  unfold clampByte; split_ifs <;> omega

theorem clampByte_add (a b : Nat) (ha : a ≤ 255) (hb : b ≤ 255) :
    clampByte ((a : Int) + b) = min (a + b) 255 := by
  unfold clampByte; split_ifs <;> omega

theorem clampByte_sub (a b : Nat) (ha : a ≤ 255) :
    clampByte ((a : Int) - b) = a - b := by
  unfold clampByte; split_ifs <;> omega

/-! ### Structural lemmas about the VM operations -/

theorem length_push (m : Mem) (v : Int) : (push m v).length = m.length := by
  unfold push
  cases h1 : readMem m (SP : Int) with
  | none =>
    dsimp only
    cases h2 : readMem m (SP : Int) with
    | none => rfl
    | some sp => exact length_writeMem ..
  | some sp =>
    dsimp only
    cases h2 : readMem (writeMem m ((STK : Int) + (sp : Int)) v) (SP : Int) with
    | none => exact length_writeMem ..
    | some sp2 => rw [length_writeMem, length_writeMem]

theorem length_pop (m : Mem) : (pop m).2.length = m.length := by
  unfold pop
  cases h1 : readMem m (SP : Int) with
  | none => rfl
  | some sp =>
    show (writeMem m (SP : Int) ((sp : Int) - 1)).length = m.length
    exact length_writeMem ..

theorem length_exec (m : Mem) (p : Int) : (exec m p).2.length = m.length := by
  unfold exec
  cases hop : fetch m p INSTR_OPCODE with
  | none => rfl
  | some op =>
    dsimp only
    rcases op with _|_|_|_|_|_|_|_|_|_|_|_|op <;> (try dsimp only) <;>
      first
        | rfl
        | exact length_writeMem ..
        | (cases hoper : fetch m p INSTR_OPERAND <;> (try dsimp only) <;>
            first
              | rfl
              | exact length_writeMem ..
              | (split_ifs <;>
                  simp only [length_writeMem, length_push, length_pop]))

theorem exec_false (m : Mem) (p : Int) (h : (exec m p).1 = false) : (exec m p).2 = m := by
  unfold exec at h ⊢
  revert h
  cases hop : fetch m p INSTR_OPCODE with
  | none => intro h; rfl
  | some op =>
    rcases op with _|_|_|_|_|_|_|_|_|_|_|_|op <;> intro h <;> (try dsimp only at h ⊢) <;>
      first
        | rfl
        | exact Bool.noConfusion h

theorem exec_pair_of_false (m : Mem) (p : Int) (h : (exec m p).1 = false) :
    exec m p = (false, m) := by
  have h2 := exec_false m p h
  rw [Prod.ext_iff]
  exact ⟨h, h2⟩

theorem jump_of_exec_false (m : Mem) (p : Int) (h : (exec m p).1 = false) :
    jump m p = (false, m) := by
  unfold jump
  rw [exec_pair_of_false m p h]
  rfl

theorem jump_of_exec_true (m : Mem) (p : Int) (h : (exec m p).1 = true) :
    jump m p = (true, writeMem (exec m p).2 (IP : Int) p) := by
  unfold jump
  dsimp only
  rw [h]
  rfl

theorem jump_fst (m : Mem) (p : Int) : (jump m p).1 = (exec m p).1 := by
  unfold jump
  dsimp only
  split_ifs <;> rfl

theorem jump_false (m : Mem) (p : Int) (h : (jump m p).1 = false) : (jump m p).2 = m := by
  rw [jump_fst] at h
  rw [jump_of_exec_false m p h]

theorem jumpFromIP_false (m : Mem) (off : Int) (h : (jumpFromIP m off).1 = false) :
    (jumpFromIP m off).2 = m := by
  unfold jumpFromIP at h ⊢
  revert h
  cases hip : readMem m (IP : Int) with
  | none => intro h; rfl
  | some ip => intro h; exact jump_false m _ h

theorem move_false (m : Mem) (d : Nat) (h : (move m d).1 = false) : (move m d).2 = m := by
  unfold move at h ⊢
  revert h
  cases hd : (readMem m (IP : Int)).bind fun ip => fetch m (ip : Int) INSTR_DIRS with
  | none =>
    intro h
    dsimp only at h ⊢
    split_ifs at h ⊢ <;> first | rfl | exact jumpFromIP_false m _ h
  | some dv =>
    intro h
    dsimp only at h ⊢
    split_ifs at h ⊢ <;> first | rfl | exact jumpFromIP_false m _ h

theorem push_spec (m : Mem) (sp : Nat) (v : Int) (hsp : readMem m (SP : Int) = some sp) :
    push m v = writeMem (writeMem m ((STK : Int) + sp) v) (SP : Int) ((sp : Int) + 1) := by
  unfold push
  rw [hsp]
  dsimp only
  rw [readMem_writeMem_ne m v (show (SP : Int) ≠ (STK : Int) + sp by
    simp only [SP, STK]; omega), hsp]

theorem readMem_push_sta (m : Mem) (v : Int) :
    readMem (push m v) (STA : Int) = readMem m (STA : Int) := by
  unfold push
  cases h1 : readMem m (SP : Int) with
  | none =>
    dsimp only
    cases h2 : readMem m (SP : Int) with
    | none => rfl
    | some sp => exact readMem_writeMem_ne m _ (by decide)
  | some sp =>
    dsimp only
    cases h2 : readMem (writeMem m ((STK : Int) + (sp : Int)) v) (SP : Int) with
    | none => exact readMem_writeMem_ne m v (by simp only [STA, STK]; omega)
    | some sp2 =>
      rw [readMem_writeMem_ne _ _ (by decide),
        readMem_writeMem_ne m v (by simp only [STA, STK]; omega)]

theorem readMem_pop_sta (m : Mem) :
    readMem (pop m).2 (STA : Int) = readMem m (STA : Int) := by
  unfold pop
  cases h1 : readMem m (SP : Int) with
  | none => rfl
  | some sp =>
    show readMem (writeMem m (SP : Int) ((sp : Int) - 1)) (STA : Int) = readMem m (STA : Int)
    exact readMem_writeMem_ne m _ (by decide)

/-! ### The result of `exec` per opcode -/

theorem exec_end (m : Mem) (p : Int) (hop : fetch m p INSTR_OPCODE = some END) :
    exec m p = (true, writeMem m (STA : Int) (HALTED : Int)) := by
  unfold exec; rw [hop]; rfl

theorem exec_get (m : Mem) (p : Int) (hop : fetch m p INSTR_OPCODE = some GET) :
    exec m p = (true, writeMem m (DBG : Int) (jsNum (resolve m p))) := by
  unfold exec; rw [hop]; rfl

theorem exec_add (m : Mem) (p : Int) (hop : fetch m p INSTR_OPCODE = some ADD) :
    exec m p = (true, writeMem m (DBG : Int) (jsAdd (readMem m (DBG : Int)) (resolve m p))) := by
  unfold exec; rw [hop]; rfl

theorem exec_sub (m : Mem) (p : Int) (hop : fetch m p INSTR_OPCODE = some SUB) :
    exec m p = (true, writeMem m (DBG : Int) (jsSub (readMem m (DBG : Int)) (resolve m p))) := by
  unfold exec; rw [hop]; rfl

theorem exec_teq (m : Mem) (p : Int) (hop : fetch m p INSTR_OPCODE = some TEQ) :
    exec m p = (decide (readMem m (DBG : Int) = resolve m p), m) := by
  unfold exec; rw [hop]; rfl

theorem exec_tlt (m : Mem) (p : Int) (hop : fetch m p INSTR_OPCODE = some TLT) :
    exec m p = (jsLt (readMem m (DBG : Int)) (resolve m p), m) := by
  unfold exec; rw [hop]; rfl

theorem exec_tgt (m : Mem) (p : Int) (hop : fetch m p INSTR_OPCODE = some TGT) :
    exec m p = (jsLt (resolve m p) (readMem m (DBG : Int)), m) := by
  unfold exec; rw [hop]; rfl

/-! ### Claim C10 — the stack pointer saturates at 0 -/

/-- Claim C10: in every state with `memory[SP] == 0`, `pop()` leaves
`memory[SP]` equal to 0 — the decrement `memory[SP] -= 1` saturates at the
clamped byte's lower bound instead of wrapping to 255. -/
theorem pop_sp_saturates (m : Mem) (h : readMem m (SP : Int) = some 0) :
    readMem (pop m).2 (SP : Int) = some 0 := by
  have hb := readMem_bound m h
  simp only [pop, h]
  rw [readMem_writeMem_self m _ (by decide) hb.2]
  decide

/-- Witness for C10 at the fresh all-zero memory. -/
theorem pop_sp_saturates_at_mem0 : readMem (pop mem0).2 (SP : Int) = some 0 :=
  pop_sp_saturates mem0 (by decide)

/-! ### Claim C2 — ADD/SUB saturate at the byte bounds -/

/-- Claim C2: for `a, b ≤ 255`, executing an `ADD` instruction whose
resolved operand is `b` while `DBG` holds `a` leaves `DBG = min (a+b) 255`,
and a `SUB` instruction leaves `DBG = a - b` in truncated natural
subtraction, that is `max (a-b) 0` — the clamped byte array saturates
instead of wrapping. -/
theorem add_sub_saturation (m : Mem) (p : Int) (a b : Nat)
    (hlen : m.length = MEMORY_SIZE)
    (ha : readMem m (DBG : Int) = some a) (hb : resolve m p = some b)
    (ha255 : a ≤ 255) (hb255 : b ≤ 255) :
    (fetch m p INSTR_OPCODE = some ADD →
      readMem (exec m p).2 (DBG : Int) = some (min (a + b) 255)) ∧
    (fetch m p INSTR_OPCODE = some SUB →
      readMem (exec m p).2 (DBG : Int) = some (a - b)) := by
  have hdbg : (DBG : Int).toNat < m.length := by rw [hlen]; decide
  constructor
  · intro hop
    rw [exec_add m p hop]
    dsimp only
    rw [ha, hb]
    rw [readMem_writeMem_self m _ (by decide) hdbg]
    rw [show jsAdd (some a) (some b) = (a : Int) + b from rfl]
    rw [clampByte_add a b ha255 hb255]
  · intro hop
    rw [exec_sub m p hop]
    dsimp only
    rw [ha, hb]
    rw [readMem_writeMem_self m _ (by decide) hdbg]
    rw [show jsSub (some a) (some b) = (a : Int) - b from rfl]
    rw [clampByte_sub a b ha255]

/-- Witness for C2 at `memAdd` (`DBG = 200`, instruction `ADD 100`):
`200 + 100` saturates to 255. -/
theorem add_sub_saturation_at_memAdd :
    (fetch memAdd 0 INSTR_OPCODE = some ADD →
      readMem (exec memAdd 0).2 (DBG : Int) = some (min (200 + 100) 255)) ∧
    (fetch memAdd 0 INSTR_OPCODE = some SUB →
      readMem (exec memAdd 0).2 (DBG : Int) = some (200 - 100)) :=
  add_sub_saturation memAdd 0 200 100 (by decide) (by decide) (by decide) (by decide)
    (by decide)

/-! ### Claim C9 — resolution of the `STK` operand -/

/-- Counterexample to claim C9 as stated: with an empty stack (`SP = 0`)
the `STK` operand in address mode does not resolve to 0 — it reads the
byte one below the stack base (address 9), which holds 5 in `memPeek9`,
and `exec` feeds that 5 into `DBG`. -/
theorem stk_empty_resolves_nonzero :
    readMem memPeek9 (SP : Int) = some 0 ∧
    fetch memPeek9 0 INSTR_MODE = some ADDRESS_MODE ∧
    fetch memPeek9 0 INSTR_OPERAND = some STK ∧
    resolve memPeek9 0 ≠ some 0 ∧
    readMem (exec memPeek9 0).2 (DBG : Int) = some 5 := by
  decide

/-- Amended claim C9: in address mode the `STK` operand resolves to the
byte at address `STK + SP - 1` (one below the stack pointer) — including
when the stack is empty, in which case this is the reserved byte at
address 9 (0 on a fresh memory but not in general), and never an error. -/
theorem operand_stk_resolves_below_sp (m : Mem) (p : Int) (sp : Nat)
    (hlen : m.length = MEMORY_SIZE)
    (hmode : fetch m p INSTR_MODE = some ADDRESS_MODE)
    (hoper : fetch m p INSTR_OPERAND = some STK)
    (hsp : readMem m (SP : Int) = some sp) (hsp255 : sp ≤ 255) :
    resolve m p = readMem m ((STK : Int) + sp - 1) := by
  unfold resolve
  rw [hmode, hoper]
  rw [if_pos rfl, if_pos rfl]
  rw [show peek m = readMem m ((STK : Int) + sp - 1) from by unfold peek; rw [hsp]; rfl]
  obtain ⟨x, hx⟩ := @readMem_of_lt m ((STK : Int) + sp - 1)
    (by simp only [STK]; omega)
    (by
      rw [hlen]
      simp only [STK, MEMORY_SIZE, PRG, PROGRAM_SIZE, PROGRAM_LENGTH, PROGRAM_COLS,
        PROGRAM_ROWS, INSTR_WIDTH]
      omega)
  rw [hx]
  rfl

/-- Witness for the amended C9 at `memPeek9` (empty stack). -/
theorem operand_stk_resolves_below_sp_at_memPeek9 :
    resolve memPeek9 0 = readMem memPeek9 ((STK : Int) + (0 : Nat) - 1) :=
  operand_stk_resolves_below_sp memPeek9 0 0 (by decide) (by decide) (by decide)
    (by decide) (by decide)

/-! ### Claim C8 — monotonicity of the status byte -/

/-- Counterexample to claim C8 as stated: `memHalted` has `STA = HALTED`
but its instruction 0 is `SET 0` (immediate), which writes the resolved
value 0 straight into the status byte, so `exec` returns the machine to
`RUNNING` without any reset or load. -/
theorem sta_reverts_at_memHalted :
    readMem memHalted (STA : Int) = some HALTED ∧
    readMem (exec memHalted 0).2 (STA : Int) = some RUNNING := by
  decide

/-- Amended claim C8: `STA = HALTED` is preserved by `exec` for every
instruction except a `SET` or `SWP` whose operand byte names the status
register itself (operand `STA = 0`) — those two opcodes perform raw
register writes and are the only execution path that can return STA from
HALTED to RUNNING; otherwise only a reset/reload does. -/
theorem sta_monotone_exec (m : Mem) (p : Int)
    (hsta : readMem m (STA : Int) = some HALTED)
    (hset : ¬(fetch m p INSTR_OPCODE = some SET ∧ fetch m p INSTR_OPERAND = some STA))
    (hswp : ¬(fetch m p INSTR_OPCODE = some SWP ∧ fetch m p INSTR_OPERAND = some STA)) :
    readMem (exec m p).2 (STA : Int) = some HALTED := by
  have hb := readMem_bound m hsta
  unfold exec
  cases hop : fetch m p INSTR_OPCODE with
  | none => exact hsta
  | some op =>
    dsimp only
    rcases op with _|_|_|_|_|_|_|_|_|_|_|_|op
    · -- NIL
      exact hsta
    · -- NOP
      exact hsta
    · -- GET
      dsimp only
      rw [readMem_writeMem_ne m _ (by decide)]
      exact hsta
    · -- SET
      dsimp only
      cases hoper : fetch m p INSTR_OPERAND with
      | none => exact hsta
      | some o =>
        dsimp only
        by_cases ho : o = STK
        · rw [if_pos ho, readMem_push_sta]
          exact hsta
        · rw [if_neg ho]
          have hne : o ≠ STA := fun he => hset ⟨hop, by rw [hoper, he]⟩
          rw [readMem_writeMem_ne m _ (by simp only [STA] at hne ⊢; omega)]
          exact hsta
    · -- SWP
      dsimp only
      cases hoper : fetch m p INSTR_OPERAND with
      | none =>
        dsimp only
        rw [readMem_writeMem_ne m _ (by decide)]
        exact hsta
      | some o =>
        dsimp only
        by_cases ho : o = STK
        · rw [if_pos ho]
          try dsimp only
          rw [readMem_writeMem_ne _ _ (by decide), readMem_push_sta, readMem_pop_sta]
          exact hsta
        · rw [if_neg ho]
          try dsimp only
          have hne : o ≠ STA := fun he => hswp ⟨hop, by rw [hoper, he]⟩
          rw [readMem_writeMem_ne _ _ (by decide),
            readMem_writeMem_ne m _ (by simp only [STA] at hne ⊢; omega)]
          exact hsta
    · -- ADD
      dsimp only
      rw [readMem_writeMem_ne m _ (by decide)]
      exact hsta
    · -- SUB
      dsimp only
      rw [readMem_writeMem_ne m _ (by decide)]
      exact hsta
    · -- TEQ
      exact hsta
    · -- TLT
      exact hsta
    · -- TGT
      exact hsta
    · -- SND
      exact hsta
    · -- END
      dsimp only
      rw [readMem_writeMem_self m _ (by decide) hb.2]
      decide
    · -- opcode with no case
      exact hsta

/-- Witness for the amended C8 at `memPeek9` with `STA` forced to HALTED:
the instruction is a `GET`, which preserves the halted status. -/
theorem sta_monotone_exec_at_halted_get :
    readMem (exec (memPeek9.set STA HALTED) 0).2 (STA : Int) = some HALTED :=
  sta_monotone_exec (memPeek9.set STA HALTED) 0 (by decide) (by decide) (by decide)

/-! ### Claim C1 — conditional gating of `jump` -/

/-- Claim C1: for an instruction index `i`, `jump(i)` commits `memory[IP]
= i` exactly when `exec(i)` returns true — when `exec(i)` returns false,
`jump(i)` leaves the whole memory (in particular `memory[IP]`) unchanged;
and for a TEQ/TLT/TGT instruction `exec(i)` returns true precisely when
`DBG = v`, `DBG < v`, `DBG > v` respectively, `v` being the resolved
operand. -/
theorem jump_exec_gating (m : Mem) (i d v : Nat)
    (hlen : m.length = MEMORY_SIZE) (hi : i < PROGRAM_LENGTH)
    (hd : readMem m (DBG : Int) = some d) (hv : resolve m (i : Int) = some v) :
    ((exec m (i : Int)).1 = true → readMem (jump m (i : Int)).2 (IP : Int) = some i) ∧
    ((exec m (i : Int)).1 = false → (jump m (i : Int)).2 = m) ∧
    (fetch m (i : Int) INSTR_OPCODE = some TEQ →
      ((exec m (i : Int)).1 = true ↔ d = v)) ∧
    (fetch m (i : Int) INSTR_OPCODE = some TLT →
      ((exec m (i : Int)).1 = true ↔ d < v)) ∧
    (fetch m (i : Int) INSTR_OPCODE = some TGT →
      ((exec m (i : Int)).1 = true ↔ v < d)) := by
  have hi255 : i ≤ 255 := by
    have h169 : PROGRAM_LENGTH = 169 := by decide
    omega
  refine ⟨?_, ?_, ?_, ?_, ?_⟩
  · intro h
    rw [jump_of_exec_true m _ h]
    dsimp only
    rw [readMem_writeMem_self _ _ (by decide) (by rw [length_exec, hlen]; decide)]
    rw [clampByte_coe i hi255]
  · intro h
    rw [jump_of_exec_false m _ h]
  · intro hop
    rw [exec_teq m _ hop]
    dsimp only
    rw [hd, hv]
    simp
  · intro hop
    rw [exec_tlt m _ hop]
    dsimp only
    rw [hd, hv]
    simp [jsLt]
  · intro hop
    rw [exec_tgt m _ hop]
    dsimp only
    rw [hd, hv]
    simp [jsLt]

/-- Witness for C1 at the all-zero memory and instruction index 0 (a `NIL`
instruction: `exec` fails and `jump` changes nothing). -/
theorem jump_exec_gating_at_mem0 :
    ((exec mem0 ((0 : Nat) : Int)).1 = true →
      readMem (jump mem0 ((0 : Nat) : Int)).2 (IP : Int) = some 0) ∧
    ((exec mem0 ((0 : Nat) : Int)).1 = false → (jump mem0 ((0 : Nat) : Int)).2 = mem0) ∧
    (fetch mem0 ((0 : Nat) : Int) INSTR_OPCODE = some TEQ →
      ((exec mem0 ((0 : Nat) : Int)).1 = true ↔ (0 : Nat) = 0)) ∧
    (fetch mem0 ((0 : Nat) : Int) INSTR_OPCODE = some TLT →
      ((exec mem0 ((0 : Nat) : Int)).1 = true ↔ (0 : Nat) < 0)) ∧
    (fetch mem0 ((0 : Nat) : Int) INSTR_OPCODE = some TGT →
      ((exec mem0 ((0 : Nat) : Int)).1 = true ↔ (0 : Nat) < 0)) :=
  jump_exec_gating mem0 0 0 0 (by decide) (by decide) (by decide) (by decide)

/-! ### Claim C4 — stack overflow aliases into fetchable program space -/

/-- Claim C4: with the stack pointer at `sp ≥ 13`, `push(v)` stores `v`
at address `STK + sp`, and any `fetch` whose computed address
`PRG + ptr*INSTR_WIDTH + field` equals `STK + sp` reads back exactly the
pushed byte — the stack and the program live in one address space beyond
stack capacity. -/
theorem push_aliases_program (m : Mem) (sp v : Nat) (ptr : Int) (field : Nat)
    (hlen : m.length = MEMORY_SIZE) (hsp : readMem m (SP : Int) = some sp)
    (h13 : 13 ≤ sp) (hsp255 : sp ≤ 255) (hv : v ≤ 255)
    (haddr : (PRG : Int) + ptr * INSTR_WIDTH + field = (STK : Int) + sp) :
    readMem (push m (v : Int)) ((STK : Int) + sp) = some v ∧
    fetch (push m (v : Int)) ptr field = some v := by
  have hkey : readMem (push m (v : Int)) ((STK : Int) + sp) = some v := by
    rw [push_spec m sp (v : Int) hsp]
    rw [readMem_writeMem_ne _ _ (by simp only [STK, SP]; omega)]
    rw [readMem_writeMem_self m _ (by simp only [STK]; omega) (by
      rw [hlen]
      simp only [STK, MEMORY_SIZE, PRG, PROGRAM_SIZE, PROGRAM_LENGTH, PROGRAM_COLS,
        PROGRAM_ROWS, INSTR_WIDTH]
      omega)]
    rw [clampByte_coe v hv]
  refine ⟨hkey, ?_⟩
  unfold fetch
  rw [haddr]
  exact hkey

/-- Witness for C4: pushing 42 with `SP = 20` lands at address 30, which
`fetch 1 INSTR_MODE` (address `24 + 4 + 2 = 30`) reads back. -/
theorem push_aliases_program_at_memSp20 :
    readMem (push memSp20 ((42 : Nat) : Int)) ((STK : Int) + (20 : Nat)) = some 42 ∧
    fetch (push memSp20 ((42 : Nat) : Int)) 1 INSTR_MODE = some 42 :=
  push_aliases_program memSp20 20 42 1 INSTR_MODE (by decide) (by decide) (by decide)
    (by decide) (by decide) (by decide)

/-! ### Claim C3 — direction-mask legality of `move` -/

/-- Claim C3: for each of the four directions, `move` returns false as
soon as the direction mask of the instruction at the current `IP` is
nonzero and does not contain the direction — the target instruction is
never executed and the state is returned unchanged. -/
theorem move_rejects_illegal_direction (m : Mem) (d ip dirs : Nat)
    (_hd : d = UP ∨ d = DOWN ∨ d = LEFT ∨ d = RIGHT)
    (hip : readMem m (IP : Int) = some ip)
    (hdirs : fetch m (ip : Int) INSTR_DIRS = some dirs)
    (hnz : dirs ≠ 0) (hmask : dirs &&& d = 0) :
    move m d = (false, m) := by
  unfold move
  rw [hip]
  rw [Option.some_bind]
  rw [hdirs]
  dsimp only
  rw [if_pos ⟨Nat.pos_of_ne_zero hnz, hmask⟩]

/-- Witness for C3 at `memDirs` (mask `UP` at instruction 0): `LEFT` is
rejected without touching memory. -/
theorem move_rejects_illegal_direction_at_memDirs :
    move memDirs LEFT = (false, memDirs) :=
  move_rejects_illegal_direction memDirs LEFT 0 UP (Or.inr (Or.inr (Or.inl rfl)))
    (by decide) (by decide) (by decide) (by decide)

/-! ### Claim C5 — a failed move leaves dispatch without effect -/

/-- Counterexample to claim C5 as stated: on `haltedState` (status byte
already `HALTED`, empty history) the `LEFT` move fails, yet `dispatch`
still runs its end-of-turn halt check, advances the level and reloads the
level program, so memory is not byte-identical afterwards. -/
theorem dispatch_mutates_after_failed_move :
    (move haltedState.memory LEFT).1 = false ∧
    (dispatch haltedState LEFT).memory ≠ haltedState.memory := by
  decide

/-- Amended claim C5: whenever the status byte is not `HALTED`, a failed
or rejected move leaves the memory byte-identical across `dispatch` and
pushes no history entry; the halted-reload at the end of `dispatch` is the
single exception forced by the counterexample. -/
theorem dispatch_failed_move_noop (s : GameState) (cmd : Nat)
    (hcmd : cmd = LEFT ∨ cmd = UP ∨ cmd = DOWN ∨ cmd = RIGHT)
    (hsta : readMem s.memory (STA : Int) ≠ some HALTED)
    (hmove : (move s.memory cmd).1 = false) :
    (dispatch s cmd).memory = s.memory ∧
    (dispatch s cmd).history.length = s.history.length := by
  have hpair : move s.memory cmd = (false, s.memory) := by
    rw [Prod.ext_iff]
    exact ⟨hmove, move_false s.memory cmd hmove⟩
  have hdm : dispatchMove s.memory cmd = (false, s.memory) := by
    rcases hcmd with h|h|h|h <;> subst h <;>
      (show move s.memory _ = (false, s.memory)) <;> exact hpair
  unfold dispatch
  rw [hdm]
  dsimp only
  rw [if_neg (by decide : ¬((false : Bool) = true))]
  dsimp only
  rw [if_neg hsta]
  exact ⟨rfl, rfl⟩

/-- Witness for the amended C5 at `runningState` (`STA = RUNNING`, the
`LEFT` move fails on the `NIL` neighbour). -/
theorem dispatch_failed_move_noop_at_runningState :
    (dispatch runningState LEFT).memory = runningState.memory ∧
    (dispatch runningState LEFT).history.length = runningState.history.length :=
  dispatch_failed_move_noop runningState LEFT (Or.inl rfl) (by decide) (by decide)

/-! ### Claim C6 — k successful moves followed by k undos -/

theorem dispatch_history_push (s : GameState) (c : Nat)
    (h : (dispatchMove s.memory c).1 = true) :
    (dispatch s c).history = s.memory :: s.history := by
  obtain ⟨mem, hist, lvl, nxt⟩ := s
  unfold dispatch
  dsimp only at h ⊢
  rw [h, if_pos rfl]
  dsimp only
  split_ifs with hh
  · unfold init goToNextLevel
    cases nxt <;> rfl
  · rfl

theorem undo_of_history_cons {s : GameState} {a : Mem} {l : List Mem}
    (h : s.history = a :: l) : undo s = { s with memory := a, history := l } := by
  obtain ⟨mem, hist, lvl, nxt⟩ := s
  dsimp only at h
  subst h
  rfl

theorem undo_of_history_nil {s : GameState} (h : s.history = []) : undo s = s := by
  obtain ⟨mem, hist, lvl, nxt⟩ := s
  dsimp only at h
  subst h
  rfl

theorem undos_restore (cmds : List Nat) : ∀ s : GameState, okRun s cmds = true →
    (undo^[cmds.length] (dispatchAll s cmds)).memory = s.memory ∧
    (undo^[cmds.length] (dispatchAll s cmds)).history = s.history := by
  induction cmds with
  | nil => intro s _; exact ⟨rfl, rfl⟩
  | cons c cs ih =>
    intro s hok
    simp only [okRun, Bool.and_eq_true] at hok
    obtain ⟨h1, h2⟩ := hok
    obtain ⟨ihm, ihh⟩ := ih (dispatch s c) h2
    have hist := dispatch_history_push s c h1
    have hstep : dispatchAll s (c :: cs) = dispatchAll (dispatch s c) cs := rfl
    have hlen : (c :: cs).length = cs.length + 1 := rfl
    rw [hstep, hlen, Function.iterate_succ_apply']
    have hcons : (undo^[cs.length] (dispatchAll (dispatch s c) cs)).history =
        s.memory :: s.history := by rw [ihh, hist]
    rw [undo_of_history_cons hcons]
    exact ⟨rfl, rfl⟩

/-- Claim C6: starting from an empty history, after a sequence of
successful moves (each `dispatch` whose `move` succeeded, pushing its
pre-move snapshot) followed by the same number of undos, memory is
byte-identical to the pre-first-move snapshot, the history is empty
again, and one further undo is a no-op that changes nothing. -/
theorem moves_then_undos_restore (s : GameState) (cmds : List Nat)
    (hok : okRun s cmds = true) (hhist : s.history = []) :
    (undo^[cmds.length] (dispatchAll s cmds)).memory = s.memory ∧
    (undo^[cmds.length] (dispatchAll s cmds)).history = [] ∧
    undo (undo^[cmds.length] (dispatchAll s cmds)) =
      undo^[cmds.length] (dispatchAll s cmds) := by
  obtain ⟨h1, h2⟩ := undos_restore cmds s hok
  rw [hhist] at h2
  exact ⟨h1, h2, undo_of_history_nil h2⟩

/-- Witness for C6 on `nopState` with the single successful move `RIGHT`. -/
theorem moves_then_undos_restore_at_nopState :
    (undo^[[RIGHT].length] (dispatchAll nopState [RIGHT])).memory = nopState.memory ∧
    (undo^[[RIGHT].length] (dispatchAll nopState [RIGHT])).history = [] ∧
    undo (undo^[[RIGHT].length] (dispatchAll nopState [RIGHT])) =
      undo^[[RIGHT].length] (dispatchAll nopState [RIGHT]) :=
  moves_then_undos_restore nopState [RIGHT] (by decide) rfl

/-! ### Claim C7 — run-length round trip -/

theorem rle_decode_rleLoop (t : List Nat) : ∀ run len : Nat,
    runLengthDecode ((rleLoop run len t).map some) =
      List.replicate len (some run) ++ t.map some := by
  induction t with
  | nil =>
    intro run len
    simp [rleLoop, runLengthDecode]
  | cons w rest ih =>
    intro run len
    by_cases h : w = run
    · subst h
      rw [rleLoop, if_pos rfl, ih]
      simp [List.replicate_succ', List.append_assoc]
    · rw [rleLoop, if_neg h]
      simp only [List.map_cons, runLengthDecode, ih, Option.getD_some]
      simp

/-- Counterexample to claim C7 as stated: on the empty byte sequence the
encoder still pushes the pair `(run, len)` with `run = array[0]`
undefined, so the round trip produces `[undefined]`, not the empty
sequence. -/
theorem rle_roundtrip_fails_empty :
    runLengthDecode (runLengthEncode ([] : List Nat)) ≠
      List.map some ([] : List Nat) := by
  decide

/-- Amended claim C7: for every nonempty byte sequence,
`runLengthDecode (runLengthEncode x)` returns exactly `x` (element-wise
`some`, since decoding yields defined bytes); the empty sequence is the
single exception forced by the counterexample. -/
theorem rle_roundtrip_nonempty (b : Nat) (t : List Nat) :
    runLengthDecode (runLengthEncode (b :: t)) = (b :: t).map some := by
  rw [show runLengthEncode (b :: t) = (rleLoop b 1 t).map some from rfl]
  rw [rle_decode_rleLoop t b 1]
  simp

end HaltingProblem
